import Mathlib

set_option linter.unreachableTactic false
set_option linter.unnecessarySeqFocus false
set_option linter.unusedTactic false

/-!
Shallow embedding of the transaction retry core, the row abstraction and the
struct mapper of the sqrlx repository, with theorems checking the
specification's claims about them.

The embedding follows the source files:
* `sqrlx/sqrl.go` — `Wrapper.Transact`, `txWrapper.SelectRaw`, `defaultShouldRetry`
* `sqrl.go` — the legacy `Wrapper.Transact` (rollback result ignored)
* `sqrlx/rows.go` — `Row.Scan`
* `scan.go` — `addNamed`
* the walkBaton revision of `InsertStruct` and the legacy revision of
  `InsertStruct` (no column-count check)

Driver calls (BeginTx, QueryContext, Commit, Rollback, Close, Next, Scan) are
modelled as oracles: a script assigns to each call site the outcome the driver
would produce, and the embedded control flow is translated statement by
statement from the Go source.
-/

namespace Sqrlx

/-- Error values flowing through the core. Constructors mirror the error
construction sites in the source: `driver` is an opaque driver error (carrying
the SQLSTATE it exposes through the lib/pq `Get` method, when it implements
it), `cbErr` is an error value returned by a transaction callback, and each
wrap constructor corresponds to one `fmt.Errorf` site. -/
inductive Err where
  /-- an error produced by the database driver; `code` is the SQLSTATE exposed
  via the lib/pq `Get` method when the error implements that interface -/
  | driver (code : Option String) (id : Nat)
  /-- an error value returned by the transaction callback -/
  | cbErr (id : Nat)
  /-- txWrapper.begin: "beginning transaction: %w" -/
  | beginWrap (cause : Err)
  /-- Wrapper.Transact: "rolling back transaction: %w" -/
  | rollbackWrap (cause : Err)
  /-- Wrapper.Transact: "committing transaction: (%d/%d) %w" -/
  | commitWrap (attempt : Nat) (total : Int) (cause : Err)
  /-- Wrapper.Transact recover branch: "Panic: %s" -/
  | panicErr (msg : String)
  /-- Row.Scan: "existing row error in scan: %w" -/
  | scanPriorWrap (cause : Err)
  /-- Row.Scan: "error in row scan row next: %w" -/
  | scanNextWrap (cause : Err)
  /-- Row.Scan: "error in row scan: %w" -/
  | scanWrap (cause : Err)
  /-- the sql.ErrNoRows sentinel -/
  | errNoRows
  /-- InsertStruct: "Length Mismatch on types" -/
  | lengthMismatch
  deriving DecidableEq

/-- errors.Unwrap on the model: the `%w`-wrapping constructors expose their
cause, every other error has no cause. -/
def unwrapErr : Err → Option Err
  | .beginWrap e => some e
  | .rollbackWrap e => some e
  | .commitWrap _ _ e => some e
  | .scanPriorWrap e => some e
  | .scanNextWrap e => some e
  | .scanWrap e => some e
  | _ => none

/-- the `Get('C')` call of defaultShouldRetry: only driver errors implement the
lib/pq interface; every other error leaves sqlState empty. -/
def getPGCode : Err → Option String
  | .driver code _ => code
  | _ => none

/-- defaultShouldRetry from sqrlx/sqrl.go: retry exactly when the error exposes
SQLSTATE 40001 (serialization failure). -/
def defaultShouldRetry (err : Err) : Bool :=
  let sqlState := (getPGCode err).getD ""
  sqlState = "40001"

/-- Outcome of one invocation of the transaction callback: normal return
(nil or an error) or a panic with a message. -/
inductive CbOutcome where
  | ok
  | err (e : Err)
  | panicked (msg : String)
  deriving DecidableEq

/-- Driver behaviour for one iteration of the Transact retry loop: the outcome
of the BeginTx call, of the callback, and of the Rollback or Commit call when
that iteration reaches it. -/
structure Attempt where
  beginErr : Option Err
  cbOutcome : CbOutcome
  rollbackErr : Option Err
  commitErr : Option Err
  deriving DecidableEq

/-- Counts of the driver calls Transact has issued. -/
structure Trace where
  begins : Nat
  cbCalls : Nat
  commits : Nat
  rollbacks : Nat
  deriving DecidableEq

/-- The Wrapper fields that drive Transact: RetryCount (a Go int, so possibly
non-positive) and the optional ShouldRetryTransaction predicate (nil in Go is
`none` here). -/
structure WrapperM where
  RetryCount : Int
  ShouldRetryTransaction : Option (Err → Bool)

/-- The error recovered from the callback invocation, after the deferred
recover: a panic is converted to the "Panic: %s" error. -/
def cbErrOf : CbOutcome → Option Err
  | .ok => none
  | .err e => some e
  | .panicked m => some (.panicErr m)

/-- The retry loop of Wrapper.Transact in sqrlx/sqrl.go, lines 241-292,
translated statement by statement. `remaining` is the number of loop
iterations left (`RetryCount - tries`), `tries` the Go loop counter, `ew` the
`exitWithError` variable, `tr` the running count of driver calls. Each
iteration reads the driver outcomes for this attempt from `script tries`:
begin failure records the wrapped begin error and continues; a callback error
(a recovered panic included) rolls back, aborts on rollback failure, retries
when ShouldRetryTransaction says so and otherwise returns the error as is; a
commit failure records the wrapped commit error and continues; a commit
success returns nil. -/
def transactAux (shouldRetry : Option (Err → Bool)) (retryCount : Int)
    (script : Nat → Attempt) : Nat → Nat → Option Err → Trace → Option Err × Trace
  | 0, _, ew, tr => (ew, tr)
  | remaining + 1, tries, _, tr =>
    let a := script tries
    match a.beginErr with
    | some e =>
        transactAux shouldRetry retryCount script remaining (tries + 1)
          (some (.beginWrap e)) { tr with begins := tr.begins + 1 }
    | none =>
        let tr1 : Trace := { tr with begins := tr.begins + 1, cbCalls := tr.cbCalls + 1 }
        match cbErrOf a.cbOutcome with
        | some e =>
            let tr2 : Trace := { tr1 with rollbacks := tr1.rollbacks + 1 }
            match a.rollbackErr with
            | some re => (some (.rollbackWrap re), tr2)
            | none =>
                match shouldRetry with
                | some p =>
                    if p e then
                      transactAux shouldRetry retryCount script remaining (tries + 1) (some e) tr2
                    else
                      (some e, tr2)
                | none => (some e, tr2)
        | none =>
            let tr2 : Trace := { tr1 with commits := tr1.commits + 1 }
            match a.commitErr with
            | some ce =>
                transactAux shouldRetry retryCount script remaining (tries + 1)
                  (some (.commitWrap (tries + 1) retryCount ce)) tr2
            | none => (none, tr2)

/-- Wrapper.Transact of sqrlx/sqrl.go: runs the retry loop for
`RetryCount` iterations (none when RetryCount is not positive), starting with
`tries = 0` and `exitWithError = nil`. Returns the returned error (none for a
nil return) together with the counts of driver calls made. -/
def Transact (w : WrapperM) (script : Nat → Attempt) : Option Err × Trace :=
  transactAux w.ShouldRetryTransaction w.RetryCount script w.RetryCount.toNat 0 none
    ⟨0, 0, 0, 0⟩

/-- The legacy retry loop of Wrapper.Transact in sqrl.go, lines 142-181. Two
differences from the sqrlx revision: the begin error is recorded unwrapped,
and the Rollback result is discarded (`txWrapped.tx.Rollback()` on line 166),
so a rollback failure neither aborts the loop nor changes the returned
error. -/
def transactLegacyAux (shouldRetry : Option (Err → Bool)) (retryCount : Int)
    (script : Nat → Attempt) : Nat → Nat → Option Err → Trace → Option Err × Trace
  | 0, _, ew, tr => (ew, tr)
  | remaining + 1, tries, _, tr =>
    let a := script tries
    match a.beginErr with
    | some e =>
        transactLegacyAux shouldRetry retryCount script remaining (tries + 1)
          (some e) { tr with begins := tr.begins + 1 }
    | none =>
        let tr1 : Trace := { tr with begins := tr.begins + 1, cbCalls := tr.cbCalls + 1 }
        match cbErrOf a.cbOutcome with
        | some e =>
            let tr2 : Trace := { tr1 with rollbacks := tr1.rollbacks + 1 }
            match shouldRetry with
            | some p =>
                if p e then
                  transactLegacyAux shouldRetry retryCount script remaining (tries + 1) (some e) tr2
                else
                  (some e, tr2)
            | none => (some e, tr2)
        | none =>
            let tr2 : Trace := { tr1 with commits := tr1.commits + 1 }
            match a.commitErr with
            | some ce =>
                transactLegacyAux shouldRetry retryCount script remaining (tries + 1)
                  (some (.commitWrap (tries + 1) retryCount ce)) tr2
            | none => (none, tr2)

/-- The legacy Wrapper.Transact of sqrl.go. -/
def TransactLegacy (w : WrapperM) (script : Nat → Attempt) : Option Err × Trace :=
  transactLegacyAux w.ShouldRetryTransaction w.RetryCount script w.RetryCount.toNat 0 none
    ⟨0, 0, 0, 0⟩

/-! ## The retrying selector (txWrapper.SelectRaw, sqrlx/sqrl.go lines 336-356) -/

/-- The isTransaction field of the txWrapper value built inside
Wrapper.Transact (sqrlx/sqrl.go lines 243-249): the composite literal sets
opts, connWrapper, PlaceholderFormat, RetryCount and queryLogger only, and no
statement in the repository ever assigns the field, so it keeps the Go zero
value false. The same holds for the QueryWrapper literal of the legacy
sqrl.go (lines 149-155). -/
def txWrapperIsTransaction : Bool := false

/-- The retry loop of txWrapper.SelectRaw: `script tries` is the error the
tries-th QueryRaw call returns (none for success). An attempt returns
immediately when it succeeds, when it reports sql.ErrNoRows, or when
isTransaction is set; otherwise the first error is retained and returned once
the attempts are exhausted. Result: the returned error (none when rows are
returned with a nil error) and the number of QueryRaw calls made. -/
def selectRawAux (isTransaction : Bool) (script : Nat → Option Err) :
    Nat → Nat → Option Err → Option Err × Nat
  | 0, tries, firstError => (firstError, tries)
  | remaining + 1, tries, firstError =>
    let err := script tries
    if err = none ∨ err = some .errNoRows ∨ isTransaction = true then
      (err, tries + 1)
    else
      selectRawAux isTransaction script remaining (tries + 1)
        (match firstError with
         | some e => some e
         | none => err)

/-- txWrapper.SelectRaw: loops `RetryCount` times from tries = 0 with
firstError = nil. -/
def SelectRaw (retryCount : Int) (isTransaction : Bool) (script : Nat → Option Err) :
    Option Err × Nat :=
  selectRawAux isTransaction script retryCount.toNat 0 none

/-! ## The Row abstraction (sqrlx/rows.go) -/

/-- Driver behaviour of the live cursor under a single Row.Scan: the value the
Next call returns, what Err reports after Next, the result of the Scan call
when a row is present, and the error of the first Close call. -/
structure Cursor where
  nextHasRow : Bool
  errResult : Option Err
  scanErr : Option Err
  closeErr : Option Err
  deriving DecidableEq

/-- A Row as built by rowFromRes (sqrlx/rows.go lines 50-60): either it
captured an error from the statement that produced it (the Rows field stays
nil), or it owns a live cursor. -/
inductive RowM where
  | prior (e : Err)
  | live (c : Cursor)
  deriving DecidableEq

/-- rowFromRes: a non-nil error yields a Row carrying only that error,
otherwise the Row carries the rows. -/
def rowFromRes : Except Err Cursor → RowM
  | .error e => .prior e
  | .ok c => .live c

/-- What a single Row.Scan call returned and how many times it invoked Close
on the underlying cursor. -/
structure ScanOutcome where
  result : Option Err
  closes : Nat
  deriving DecidableEq

/-- Row.Scan (sqrlx/rows.go lines 62-80), statement by statement. A prior
error returns wrapped at once, before the deferred Close is installed, so the
(nil) cursor is never touched. Otherwise Close is deferred, Next is called
once; with no row, a driver error from Err is returned wrapped, else the
sql.ErrNoRows sentinel, the deferred Close running in both cases; with a row,
a Scan error is returned wrapped (deferred Close runs), and on success the
explicit `return r.Rows.Close()` reports the Close error, after which the
deferred Close closes a second time, its result discarded. -/
def rowScan : RowM → ScanOutcome
  | .prior e => ⟨some (.scanPriorWrap e), 0⟩
  | .live c =>
    if c.nextHasRow = false then
      match c.errResult with
      | some e => ⟨some (.scanNextWrap e), 1⟩
      | none => ⟨some .errNoRows, 1⟩
    else
      match c.scanErr with
      | some e => ⟨some (.scanWrap e), 1⟩
      | none => ⟨c.closeErr, 2⟩

/-! ## The struct mapper (addNamed, scan.go lines 13-45) -/

mutual
/-- A declared field of a Go record as the mapper sees it: a plain field with
its sql tag and its address (an opaque identifier standing for the
`rv.Field(i).Addr().Interface()` pointer), or an anonymous struct field that
is recursed into. -/
inductive GoField where
  | plain (tag : String) (addr : Nat) : GoField
  | embedded (tag : String) (sub : GoStruct) : GoField
/-- The declared fields of a Go record, in declaration order. -/
inductive GoStruct where
  | nil : GoStruct
  | cons (f : GoField) (rest : GoStruct) : GoStruct
end

/-- Write to the structCols Go map: replace the binding when the key is
present, append otherwise. -/
def setCol : List (String × Nat) → String → Nat → List (String × Nat)
  | [], k, v => [(k, v)]
  | (k', v') :: rest, k, v =>
    if k' = k then (k, v) :: rest else (k', v') :: setCol rest k v

/-- Read from the structCols Go map. -/
def lookupCol : List (String × Nat) → String → Option Nat
  | [], _ => none
  | (k', v') :: rest, k => if k' = k then some v' else lookupCol rest k

mutual
/-- The body of the addNamed field loop (scan.go lines 17-43) for one field:
a "-" tag is skipped; an anonymous struct field is recursed into with
override disabled; an empty tag is skipped; otherwise the field address is
written to the map, unconditionally when override is set and only for a fresh
name otherwise. -/
def addNamedField (cols : List (String × Nat)) (f : GoField) (override : Bool) :
    List (String × Nat) :=
  match f with
  | .plain tag addr =>
    if tag = "-" then cols
    else if tag = "" then cols
    else if override then setCol cols tag addr
    else
      match lookupCol cols tag with
      | some _ => cols
      | none => setCol cols tag addr
  | .embedded tag sub =>
    if tag = "-" then cols
    else addNamedStruct cols sub false
/-- addNamed over a whole record: the field loop in declaration order. -/
def addNamedStruct (cols : List (String × Nat)) (s : GoStruct) (override : Bool) :
    List (String × Nat) :=
  match s with
  | .nil => cols
  | .cons f rest => addNamedStruct (addNamedField cols f override) rest override
end

/-- The address of the last outer (non-embedded, non-skipped) field of `s`
declaring the tag `c`. With override enabled the later of two plain writes to
the same name wins, so this is the address the claim expects the map to
hold. -/
def lastOuterAddr (s : GoStruct) (c : String) : Option Nat :=
  match s with
  | .nil => none
  | .cons (.plain tag addr) rest =>
    match lastOuterAddr rest c with
    | some a => some a
    | none => if tag = c then some addr else none
  | .cons (.embedded _ _) rest => lastOuterAddr rest c

mutual
/-- Whether a field contributes the column name `c` to the mapping: a plain
field by its tag, an anonymous struct field (not skipped by a "-" tag) through
any field of the record it embeds. -/
def fieldDeclaresCol : GoField → String → Bool
  | .plain tag _, c => tag = c
  | .embedded tag sub, c => !(tag = "-") && structDeclaresCol sub c
/-- Whether any declared field of the record contributes the column name. -/
def structDeclaresCol : GoStruct → String → Bool
  | .nil, _ => false
  | .cons f rest, c => fieldDeclaresCol f c || structDeclaresCol rest c
end

/-- Whether some embedded (anonymous) record field of `s` declares the column
name `c` through embedding. -/
def hasEmbeddedDecl (s : GoStruct) (c : String) : Bool :=
  match s with
  | .nil => false
  | .cons (.embedded tag sub) rest =>
    (!(tag = "-") && structDeclaresCol sub c) || hasEmbeddedDecl rest c
  | .cons (.plain _ _) rest => hasEmbeddedDecl rest c

/-! ## InsertStruct: the walkBaton revision and the legacy revision -/

/-- The structCols map one record contributes in the walkBaton revision of
InsertStruct (unnamed part 001, lines 27-33): addNamed on a fresh map with the
walkBaton override field left at its zero value false. -/
def colsOf (s : GoStruct) : List (String × Nat) :=
  addNamedStruct [] s false

/-- The records after the first in the walkBaton InsertStruct: each must match
the first record's column count or the call fails with the Length Mismatch
error; its values are the map entries in the order of the first record's
names, a missing name contributing the nil interface (none). -/
def insertStructRest (names : List String) : List GoStruct → Except Err (List (List (Option Nat)))
  | [] => .ok []
  | s :: rest =>
    let structCols := colsOf s
    if names.length = structCols.length then
      match insertStructRest names rest with
      | .error e => .error e
      | .ok rows => .ok ((names.map (fun n => lookupCol structCols n)) :: rows)
    else
      .error .lengthMismatch

/-- InsertStruct, walkBaton revision (unnamed part 001, lines 10-55): the
first record fixes the column names, every further record is checked against
their count only; the result is the builder content, the column names with one
value row per record. -/
def InsertStruct : List GoStruct → Except Err (List String × List (List (Option Nat)))
  | [] => .ok ([], [])
  | s :: rest =>
    let structCols := colsOf s
    let names := structCols.map Prod.fst
    match insertStructRest names rest with
    | .error e => .error e
    | .ok rows => .ok (names, (names.map (fun n => lookupCol structCols n)) :: rows)

/-- A value appended to the legacy insert builder: the value of a scalar field
or, for an anonymous struct field (which the legacy loop does not treat
specially), the embedded record passed by value. -/
inductive GoVal where
  | field (addr : Nat)
  | record (s : GoStruct)

/-- The value row one record contributes in the legacy InsertStruct
(simple.go lines 15-44): every top-level field with a tag other than "" and
"-", in declaration order, with no recursion into anonymous fields. -/
def legacyRowValues : GoStruct → List GoVal
  | .nil => []
  | .cons f rest =>
    match f with
    | .plain tag addr =>
      if tag = "" ∨ tag = "-" then legacyRowValues rest
      else .field addr :: legacyRowValues rest
    | .embedded tag sub =>
      if tag = "" ∨ tag = "-" then legacyRowValues rest
      else .record sub :: legacyRowValues rest

/-- The column names the legacy InsertStruct takes from the first record:
the same filter as legacyRowValues. -/
def legacyNames : GoStruct → List String
  | .nil => []
  | .cons f rest =>
    match f with
    | .plain tag _ =>
      if tag = "" ∨ tag = "-" then legacyNames rest else tag :: legacyNames rest
    | .embedded tag _ =>
      if tag = "" ∨ tag = "-" then legacyNames rest else tag :: legacyNames rest

/-- InsertStruct, legacy revision (simple.go lines 9-49): names come from the
first record, every record contributes its own value row, and no comparison
between records is ever made — the function returns the builder and a nil
error for every list of records. -/
def InsertStructLegacy (srcs : List GoStruct) :
    Except Err (List String × List (List GoVal)) :=
  match srcs with
  | [] => .ok ([], [])
  | s :: rest => .ok (legacyNames s, legacyRowValues s :: rest.map legacyRowValues)

/-! ## Classification of one Transact attempt -/

/-- Whether a callback error makes the loop retry: ShouldRetryTransaction is
consulted when non-nil, a nil predicate never retries (Transact lines
277-283). -/
def retryDecision (shouldRetry : Option (Err → Bool)) (e : Err) : Bool :=
  match shouldRetry with
  | some p => p e
  | none => false

/-- An attempt that neither returns from Transact nor commits: its begin
fails, or its callback produces an error that is rolled back cleanly and
classified retryable, or its callback succeeds and the commit fails. Exactly
these attempts record an exit-candidate error and continue the loop. -/
def nonTerminal (shouldRetry : Option (Err → Bool)) (a : Attempt) : Prop :=
  match a.beginErr with
  | some _ => True
  | none =>
    match cbErrOf a.cbOutcome with
    | some e => a.rollbackErr = none ∧ retryDecision shouldRetry e = true
    | none => a.commitErr.isSome = true

/-- The exit-candidate error a non-terminal attempt at loop index `i` records
into exitWithError: the wrapped begin error, the callback error as is, or the
commit error wrapped with the attempt numbers. -/
def recordedErr (retryCount : Int) (i : Nat) (a : Attempt) : Option Err :=
  match a.beginErr with
  | some e => some (.beginWrap e)
  | none =>
    match cbErrOf a.cbOutcome with
    | some e => some e
    | none =>
      match a.commitErr with
      | some ce => some (.commitWrap (i + 1) retryCount ce)
      | none => none

/-! ## Theorems -/

/-- One loop iteration whose BeginTx call fails: the wrapped begin error is
recorded and the loop continues. -/
theorem transactAux_step_begin (sr : Option (Err → Bool)) (rc : Int)
    (script : Nat → Attempt) (k tries : Nat) (ew : Option Err) (tr : Trace) (e : Err)
    (hb : (script tries).beginErr = some e) :
    transactAux sr rc script (k + 1) tries ew tr
      = transactAux sr rc script k (tries + 1) (some (.beginWrap e))
          { tr with begins := tr.begins + 1 } := by
  conv_lhs => rw [transactAux]
  simp [hb]

/-- One loop iteration whose callback produces an error and whose rollback
fails: the loop is aborted with the wrapped rollback error. -/
theorem transactAux_step_rollbackFail (sr : Option (Err → Bool)) (rc : Int)
    (script : Nat → Attempt) (k tries : Nat) (ew : Option Err) (tr : Trace) (e re : Err)
    (hb : (script tries).beginErr = none)
    (hcb : cbErrOf (script tries).cbOutcome = some e)
    (hrb : (script tries).rollbackErr = some re) :
    transactAux sr rc script (k + 1) tries ew tr
      = (some (.rollbackWrap re),
         ⟨tr.begins + 1, tr.cbCalls + 1, tr.commits, tr.rollbacks + 1⟩) := by
  conv_lhs => rw [transactAux]
  simp [hb, hcb, hrb]

/-- One loop iteration whose callback error is rolled back cleanly and
classified retryable: the error is recorded and the loop continues. -/
theorem transactAux_step_retry (p : Err → Bool) (rc : Int)
    (script : Nat → Attempt) (k tries : Nat) (ew : Option Err) (tr : Trace) (e : Err)
    (hb : (script tries).beginErr = none)
    (hcb : cbErrOf (script tries).cbOutcome = some e)
    (hrb : (script tries).rollbackErr = none)
    (hp : p e = true) :
    transactAux (some p) rc script (k + 1) tries ew tr
      = transactAux (some p) rc script k (tries + 1) (some e)
          ⟨tr.begins + 1, tr.cbCalls + 1, tr.commits, tr.rollbacks + 1⟩ := by
  conv_lhs => rw [transactAux]
  simp [hb, hcb, hrb, hp]

/-- One loop iteration whose callback error is rolled back cleanly and not
classified retryable: the error is returned to the caller as it is. -/
theorem transactAux_step_noRetry (p : Err → Bool) (rc : Int)
    (script : Nat → Attempt) (k tries : Nat) (ew : Option Err) (tr : Trace) (e : Err)
    (hb : (script tries).beginErr = none)
    (hcb : cbErrOf (script tries).cbOutcome = some e)
    (hrb : (script tries).rollbackErr = none)
    (hp : p e = false) :
    transactAux (some p) rc script (k + 1) tries ew tr
      = (some e, ⟨tr.begins + 1, tr.cbCalls + 1, tr.commits, tr.rollbacks + 1⟩) := by
  conv_lhs => rw [transactAux]
  simp [hb, hcb, hrb, hp]

/-- One loop iteration whose callback succeeds and whose Commit fails: the
wrapped commit error is recorded and the loop continues. -/
theorem transactAux_step_commitFail (sr : Option (Err → Bool)) (rc : Int)
    (script : Nat → Attempt) (k tries : Nat) (ew : Option Err) (tr : Trace) (ce : Err)
    (hb : (script tries).beginErr = none)
    (hcb : cbErrOf (script tries).cbOutcome = none)
    (hc : (script tries).commitErr = some ce) :
    transactAux sr rc script (k + 1) tries ew tr
      = transactAux sr rc script k (tries + 1) (some (.commitWrap (tries + 1) rc ce))
          ⟨tr.begins + 1, tr.cbCalls + 1, tr.commits + 1, tr.rollbacks⟩ := by
  conv_lhs => rw [transactAux]
  simp [hb, hcb, hc]

/-- Each loop iteration makes at most one BeginTx call, one callback call and
one Commit call, so every count grows by at most the number of remaining
iterations. -/
theorem transactAux_calls_le (sr : Option (Err → Bool)) (rc : Int) (script : Nat → Attempt) :
    ∀ (remaining tries : Nat) (ew : Option Err) (tr : Trace),
      (transactAux sr rc script remaining tries ew tr).2.begins ≤ tr.begins + remaining
      ∧ (transactAux sr rc script remaining tries ew tr).2.cbCalls ≤ tr.cbCalls + remaining
      ∧ (transactAux sr rc script remaining tries ew tr).2.commits ≤ tr.commits + remaining := by
  intro remaining
  induction remaining with
  | zero => intro tries ew tr; simp [transactAux]
  | succ k ih =>
    intro tries ew tr
    cases hb : (script tries).beginErr with
    | some e =>
      have h := ih (tries + 1) (some (.beginWrap e)) { tr with begins := tr.begins + 1 }
      simp only [transactAux, hb]
      obtain ⟨h1, h2, h3⟩ := h
      refine ⟨h1.trans (by simp <;> omega), h2.trans (by simp <;> omega), h3.trans (by simp <;> omega)⟩
    | none =>
      cases hcb : cbErrOf (script tries).cbOutcome with
      | some e =>
        cases hrb : (script tries).rollbackErr with
        | some re =>
          simp only [transactAux, hb, hcb, hrb]
          refine ⟨by simp <;> omega, by simp <;> omega, by simp <;> omega⟩
        | none =>
          cases sr with
          | none =>
            simp only [transactAux, hb, hcb, hrb]
            refine ⟨by simp <;> omega, by simp <;> omega, by simp <;> omega⟩
          | some p =>
            by_cases hp : p e
            · have h := ih (tries + 1) (some e)
                ⟨tr.begins + 1, tr.cbCalls + 1, tr.commits, tr.rollbacks + 1⟩
              simp only [transactAux, hb, hcb, hrb, hp, if_true]
              obtain ⟨h1, h2, h3⟩ := h
              refine ⟨h1.trans (by simp <;> omega), h2.trans (by simp <;> omega),
                h3.trans (by simp <;> omega)⟩
            · simp only [transactAux, hb, hcb, hrb, hp, if_false]
              refine ⟨by simp <;> omega, by simp <;> omega, by simp <;> omega⟩
      | none =>
        cases hc : (script tries).commitErr with
        | some ce =>
          have h := ih (tries + 1) (some (.commitWrap (tries + 1) rc ce))
            ⟨tr.begins + 1, tr.cbCalls + 1, tr.commits + 1, tr.rollbacks⟩
          simp only [transactAux, hb, hcb, hc]
          obtain ⟨h1, h2, h3⟩ := h
          refine ⟨h1.trans (by simp <;> omega), h2.trans (by simp <;> omega),
            h3.trans (by simp <;> omega)⟩
        | none =>
          simp only [transactAux, hb, hcb, hc]
          refine ⟨by simp <;> omega, by simp <;> omega, by simp <;> omega⟩

/-- When every one of the remaining attempts is non-terminal, the loop runs
them all, issues one BeginTx call per iteration, and returns the
exit-candidate error recorded by the last attempt. -/
theorem transactAux_exhaust (sr : Option (Err → Bool)) (rc : Int) (script : Nat → Attempt) :
    ∀ (k tries : Nat) (ew : Option Err) (tr : Trace),
      (∀ i, tries ≤ i → i < tries + (k + 1) → nonTerminal sr (script i)) →
      (transactAux sr rc script (k + 1) tries ew tr).1
          = recordedErr rc (tries + k) (script (tries + k))
        ∧ (transactAux sr rc script (k + 1) tries ew tr).2.begins = tr.begins + (k + 1) := by
  intro k
  induction k with
  | zero =>
    intro tries ew tr h
    have ht := h tries le_rfl (by omega)
    cases hb : (script tries).beginErr with
    | some e =>
      rw [transactAux_step_begin sr rc script 0 tries ew tr e hb]
      simp [transactAux, recordedErr, hb]
    | none =>
      cases hcb : cbErrOf (script tries).cbOutcome with
      | some e =>
        simp only [nonTerminal, hb, hcb] at ht
        obtain ⟨hrb, hrd⟩ := ht
        cases sr with
        | none => simp [retryDecision] at hrd
        | some p =>
          simp only [retryDecision] at hrd
          rw [transactAux_step_retry p rc script 0 tries ew tr e hb hcb hrb hrd]
          simp [transactAux, recordedErr, hb, hcb]
      | none =>
        simp only [nonTerminal, hb, hcb] at ht
        cases hc : (script tries).commitErr with
        | none => rw [hc] at ht; simp at ht
        | some ce =>
          rw [transactAux_step_commitFail sr rc script 0 tries ew tr ce hb hcb hc]
          simp [transactAux, recordedErr, hb, hcb, hc]
  | succ k ih =>
    intro tries ew tr h
    have ht := h tries le_rfl (by omega)
    have harr : tries + 1 + k = tries + (k + 1) := by omega
    cases hb : (script tries).beginErr with
    | some e =>
      have hrec := ih (tries + 1) (some (.beginWrap e)) { tr with begins := tr.begins + 1 }
        (fun i h1 h2 => h i (by omega) (by omega))
      rw [harr] at hrec
      rw [transactAux_step_begin sr rc script (k + 1) tries ew tr e hb]
      exact ⟨hrec.1, by rw [hrec.2]; simp <;> omega⟩
    | none =>
      cases hcb : cbErrOf (script tries).cbOutcome with
      | some e =>
        simp only [nonTerminal, hb, hcb] at ht
        obtain ⟨hrb, hrd⟩ := ht
        cases sr with
        | none => simp [retryDecision] at hrd
        | some p =>
          simp only [retryDecision] at hrd
          have hrec := ih (tries + 1) (some e)
            ⟨tr.begins + 1, tr.cbCalls + 1, tr.commits, tr.rollbacks + 1⟩
            (fun i h1 h2 => h i (by omega) (by omega))
          rw [harr] at hrec
          rw [transactAux_step_retry p rc script (k + 1) tries ew tr e hb hcb hrb hrd]
          exact ⟨hrec.1, by rw [hrec.2]; simp <;> omega⟩
      | none =>
        simp only [nonTerminal, hb, hcb] at ht
        cases hc : (script tries).commitErr with
        | none => rw [hc] at ht; simp at ht
        | some ce =>
          have hrec := ih (tries + 1) (some (.commitWrap (tries + 1) rc ce))
            ⟨tr.begins + 1, tr.cbCalls + 1, tr.commits + 1, tr.rollbacks⟩
            (fun i h1 h2 => h i (by omega) (by omega))
          rw [harr] at hrec
          rw [transactAux_step_commitFail sr rc script (k + 1) tries ew tr ce hb hcb hc]
          exact ⟨hrec.1, by rw [hrec.2]; simp <;> omega⟩

/-- C1 (counterexample): with the retry predicate that accepts every error,
a panic in the first attempt's callback is rolled back and then retried — the
loop runs a second attempt (two begins, two callback calls) and Transact
returns nil from its commit, so a caught panic is not terminating for every
ShouldRetryTransaction. -/
theorem c1_counterexample :
    ((fun n => if n = 0 then (⟨none, .panicked "boom", none, none⟩ : Attempt)
               else ⟨none, .ok, none, none⟩) 0).cbOutcome = .panicked "boom"
    ∧ Transact ⟨2, some (fun _ => true)⟩
        (fun n => if n = 0 then ⟨none, .panicked "boom", none, none⟩
                  else ⟨none, .ok, none, none⟩)
      = (none, ⟨2, 2, 1, 1⟩) := by
  constructor
  · rfl
  · decide

/-- C3 (code bug): the txWrapper built inside Transact carries
isTransaction = false because the field is never assigned, so a select issued
inside an active transaction retries: with RetryCount 3 and every QueryRaw
attempt failing, SelectRaw makes 3 attempts and returns the first error,
where the claim requires an immediate return after 1 attempt; with the flag
actually set (the intended value inside a transaction) the code would return
after the first attempt, as the claim states. -/
theorem c3_code_bug :
    txWrapperIsTransaction = false
    ∧ SelectRaw 3 txWrapperIsTransaction (fun _ => some (.driver none 7))
        = (some (.driver none 7), 3)
    ∧ SelectRaw 3 true (fun _ => some (.driver none 7))
        = (some (.driver none 7), 1)
    ∧ SelectRaw 3 txWrapperIsTransaction
        (fun n => if n = 0 then some (.driver none 7) else some (.driver none 8))
        = (some (.driver none 7), 3) := by
  refine ⟨rfl, by decide, by decide, by decide⟩

/-- C4 (counterexample): in the legacy Wrapper.Transact of sqrl.go the
Rollback result is discarded, so when the first attempt's callback fails with
a retryable error and the rollback itself fails, the loop is not aborted: a
second attempt is begun (two begins) and Transact returns nil, not a
rollback-failure error. -/
theorem c4_counterexample :
    ((fun n => if n = 0 then
        (⟨none, .err (.cbErr 7), some (.driver none 9), none⟩ : Attempt)
      else ⟨none, .ok, none, none⟩) 0).rollbackErr = some (.driver none 9)
    ∧ TransactLegacy ⟨2, some (fun _ => true)⟩
        (fun n => if n = 0 then ⟨none, .err (.cbErr 7), some (.driver none 9), none⟩
                  else ⟨none, .ok, none, none⟩)
      = (none, ⟨2, 2, 1, 1⟩) := by
  constructor
  · rfl
  · decide

/-- C5 (counterexample): Close is not invoked exactly once on every path of
Row.Scan — on the row-found success path the cursor is closed twice (the
explicit return plus the deferred close), and on the prior-construction-error
path no cursor exists and Close is not invoked at all. -/
theorem c5_counterexample :
    (rowScan (.live ⟨true, none, none, none⟩)).closes = 2
    ∧ (rowScan (.prior (.cbErr 0))).closes = 0 := by
  decide

/-- C9 (counterexample): the legacy InsertStruct of simple.go performs no
column-count comparison — two records producing 1 and 2 columns respectively
are accepted and the call returns the builder with misaligned value rows and
a nil error, so the call does not fail although a record after the first has
a different column count. -/
theorem c9_counterexample :
    (legacyRowValues (.cons (.plain "a" 1) .nil)).length = 1
    ∧ (legacyRowValues (.cons (.plain "a" 2) (.cons (.plain "b" 3) .nil))).length = 2
    ∧ InsertStructLegacy
        [.cons (.plain "a" 1) .nil, .cons (.plain "a" 2) (.cons (.plain "b" 3) .nil)]
      = .ok (["a"], [[.field 1], [.field 2, .field 3]]) := by
  refine ⟨rfl, rfl, rfl⟩

/-- C2: Transact makes at most RetryCount begin, callback and commit
attempts; and when every one of the RetryCount attempts fails non-terminally
(begin failure, retryable rolled-back callback error, or commit failure — the
latter recorded and retried rather than returned), the loop runs exactly
RetryCount iterations and returns the exit-candidate error recorded by the
most recent attempt. -/
theorem c2_retry_bound_and_exhaustion (w : WrapperM) (script : Nat → Attempt) :
    ((Transact w script).2.begins ≤ w.RetryCount.toNat
      ∧ (Transact w script).2.cbCalls ≤ w.RetryCount.toNat
      ∧ (Transact w script).2.commits ≤ w.RetryCount.toNat)
    ∧ (0 < w.RetryCount.toNat →
        (∀ i < w.RetryCount.toNat, nonTerminal w.ShouldRetryTransaction (script i)) →
        (Transact w script).1
            = recordedErr w.RetryCount (w.RetryCount.toNat - 1)
                (script (w.RetryCount.toNat - 1))
          ∧ (Transact w script).2.begins = w.RetryCount.toNat) := by
  constructor
  · have h := transactAux_calls_le w.ShouldRetryTransaction w.RetryCount script
      w.RetryCount.toNat 0 none ⟨0, 0, 0, 0⟩
    simpa [Transact] using h
  · intro hpos hall
    cases hn : w.RetryCount.toNat with
    | zero => omega
    | succ k =>
      have h := transactAux_exhaust w.ShouldRetryTransaction w.RetryCount script
        k 0 none ⟨0, 0, 0, 0⟩ (by intro i h1 h2; exact hall i (by omega))
      unfold Transact
      rw [hn]
      simpa using h

/-- C2 witness: RetryCount 2, both attempts commit-fail; Transact makes
exactly 2 begins and returns the second attempt's wrapped commit error. -/
theorem c2_witness :
    (0 : Nat) < (2 : Int).toNat
    ∧ (∀ i < (2 : Int).toNat,
        nonTerminal (some defaultShouldRetry)
          ((fun _ => (⟨none, .ok, none, some (.driver none 3)⟩ : Attempt)) i))
    ∧ (Transact ⟨2, some defaultShouldRetry⟩
          (fun _ => ⟨none, .ok, none, some (.driver none 3)⟩)).1
        = some (.commitWrap 2 2 (.driver none 3))
    ∧ (Transact ⟨2, some defaultShouldRetry⟩
          (fun _ => ⟨none, .ok, none, some (.driver none 3)⟩)).2.begins
        = (2 : Int).toNat := by
  have h := (c2_retry_bound_and_exhaustion ⟨2, some defaultShouldRetry⟩
    (fun _ => ⟨none, .ok, none, some (.driver none 3)⟩)).2
    (by decide) (fun i _ => by exact Option.isSome_some)
  exact ⟨by decide, fun i _ => Option.isSome_some, h.1.trans (by decide), h.2⟩

/-- C6: when an attempt's callback returns an error, the rollback succeeds
and ShouldRetryTransaction classifies the error non-retryable, Transact
returns that error value unchanged, having issued exactly one rollback in
that attempt and no further begin, callback or commit. -/
theorem c6_nonretryable_callback_error (p : Err → Bool) (rc : Int)
    (script : Nat → Attempt) (k tries : Nat) (ew : Option Err) (tr : Trace) (e : Err)
    (hb : (script tries).beginErr = none)
    (hcb : (script tries).cbOutcome = .err e)
    (hrb : (script tries).rollbackErr = none)
    (hp : p e = false) :
    transactAux (some p) rc script (k + 1) tries ew tr
      = (some e, ⟨tr.begins + 1, tr.cbCalls + 1, tr.commits, tr.rollbacks + 1⟩) :=
  transactAux_step_noRetry p rc script k tries ew tr e hb (by rw [hcb]; rfl) hrb hp

/-- C6 witness: a non-retryable callback error on the first attempt of a
RetryCount-5 Transact is returned unchanged after exactly one rollback. -/
theorem c6_witness :
    ((fun _ => (⟨none, .err (.cbErr 9), none, none⟩ : Attempt)) 0).beginErr = none
    ∧ defaultShouldRetry (.cbErr 9) = false
    ∧ transactAux (some defaultShouldRetry) 5
        (fun _ => ⟨none, .err (.cbErr 9), none, none⟩) 5 0 none ⟨0, 0, 0, 0⟩
      = (some (.cbErr 9), ⟨1, 1, 0, 1⟩) := by
  refine ⟨rfl, rfl, ?_⟩
  exact c6_nonretryable_callback_error defaultShouldRetry 5
    (fun _ => ⟨none, .err (.cbErr 9), none, none⟩) 4 0 none ⟨0, 0, 0, 0⟩ (.cbErr 9)
    rfl rfl rfl rfl

/-- C4 (amended): in the sqrlx revision of Wrapper.Transact, when an
attempt's callback produces an error and the rollback itself fails, the whole
retry loop aborts at once — no matter how many attempts remain — and the
caller receives the rollback error wrapped as a rolling-back failure; no
further begin, callback or commit is issued. The legacy sqrl.go revision
instead discards the rollback result (see the counterexample). -/
theorem c4_amended_rollback_failure_aborts (sr : Option (Err → Bool)) (rc : Int)
    (script : Nat → Attempt) (k tries : Nat) (ew : Option Err) (tr : Trace) (e re : Err)
    (hb : (script tries).beginErr = none)
    (hcb : cbErrOf (script tries).cbOutcome = some e)
    (hrb : (script tries).rollbackErr = some re) :
    transactAux sr rc script (k + 1) tries ew tr
      = (some (.rollbackWrap re),
         ⟨tr.begins + 1, tr.cbCalls + 1, tr.commits, tr.rollbacks + 1⟩) :=
  transactAux_step_rollbackFail sr rc script k tries ew tr e re hb hcb hrb

/-- C4 witness: with 4 attempts remaining, a callback error followed by a
failed rollback ends the call immediately with the wrapped rollback error. -/
theorem c4_witness :
    ((fun _ => (⟨none, .err (.cbErr 1), some (.driver none 2), none⟩ : Attempt)) 0).rollbackErr
        = some (.driver none 2)
    ∧ transactAux (some defaultShouldRetry) 5
        (fun _ => ⟨none, .err (.cbErr 1), some (.driver none 2), none⟩) 4 0 none ⟨0, 0, 0, 0⟩
      = (some (.rollbackWrap (.driver none 2)), ⟨1, 1, 0, 1⟩) := by
  refine ⟨rfl, ?_⟩
  exact c4_amended_rollback_failure_aborts (some defaultShouldRetry) 5
    (fun _ => ⟨none, .err (.cbErr 1), some (.driver none 2), none⟩) 3 0 none ⟨0, 0, 0, 0⟩
    (.cbErr 1) (.driver none 2) rfl rfl rfl

/-- C1 (amended): a panic in the callback is caught, converted to the
Panic error and the transaction is rolled back; the panic error is then
passed to ShouldRetryTransaction exactly like a returned callback error, so
it terminates the call (rather than retrying) precisely when the predicate
classifies it non-retryable — which the default predicate always does, since
a panic error exposes no SQLSTATE. -/
theorem c1_amended_panic_through_policy (p : Err → Bool) (rc : Int)
    (script : Nat → Attempt) (k tries : Nat) (ew : Option Err) (tr : Trace) (m : String)
    (hb : (script tries).beginErr = none)
    (hcb : (script tries).cbOutcome = .panicked m)
    (hrb : (script tries).rollbackErr = none)
    (hp : p (Err.panicErr m) = false) :
    transactAux (some p) rc script (k + 1) tries ew tr
      = (some (.panicErr m), ⟨tr.begins + 1, tr.cbCalls + 1, tr.commits, tr.rollbacks + 1⟩)
    ∧ defaultShouldRetry (Err.panicErr m) = false := by
  refine ⟨?_, rfl⟩
  exact transactAux_step_noRetry p rc script k tries ew tr (.panicErr m)
    hb (by rw [hcb]; rfl) hrb hp

/-- C1 witness: a first-attempt panic under the default retry predicate is
rolled back and returned as the Panic error with no second attempt. -/
theorem c1_witness :
    defaultShouldRetry (Err.panicErr "boom") = false
    ∧ transactAux (some defaultShouldRetry) 5
        (fun _ => ⟨none, .panicked "boom", none, none⟩) 5 0 none ⟨0, 0, 0, 0⟩
      = (some (.panicErr "boom"), ⟨1, 1, 0, 1⟩) := by
  refine ⟨rfl, ?_⟩
  exact (c1_amended_panic_through_policy defaultShouldRetry 5
    (fun _ => ⟨none, .panicked "boom", none, none⟩) 4 0 none ⟨0, 0, 0, 0⟩ "boom"
    rfl rfl rfl rfl).1

/-- C10: a Wrapper whose RetryCount is zero or negative never enters the
retry loop: Transact returns nil without any begin, callback, commit or
rollback. -/
theorem c10_nonpositive_retrycount (w : WrapperM) (script : Nat → Attempt)
    (h : w.RetryCount ≤ 0) :
    Transact w script = (none, ⟨0, 0, 0, 0⟩) := by
  unfold Transact
  rw [Int.toNat_of_nonpos h]
  rfl

/-- C10 witness: RetryCount 0 returns nil with no driver calls at all. -/
theorem c10_witness :
    (0 : Int) ≤ 0
    ∧ Transact ⟨0, some defaultShouldRetry⟩ (fun _ => ⟨none, .ok, none, none⟩)
        = (none, ⟨0, 0, 0, 0⟩) :=
  ⟨le_rfl, c10_nonpositive_retrycount ⟨0, some defaultShouldRetry⟩
    (fun _ => ⟨none, .ok, none, none⟩) le_rfl⟩

/-- C7: a Row built with a pre-existing error returns it from Scan at once,
wrapped so that unwrapping recovers the prior error; a Row with a live cursor
whose Next yields no row returns the driver error reported by Err, wrapped,
when there is one, and the sql.ErrNoRows sentinel itself otherwise. -/
theorem c7_scan_error_paths (e : Err) (c : Cursor) :
    (rowScan (.prior e) = ⟨some (.scanPriorWrap e), 0⟩
      ∧ unwrapErr (.scanPriorWrap e) = some e)
    ∧ (c.nextHasRow = false →
        rowScan (.live c)
          = ⟨some (match c.errResult with
                   | some de => .scanNextWrap de
                   | none => .errNoRows), 1⟩) := by
  refine ⟨⟨rfl, rfl⟩, ?_⟩
  intro h
  cases hc : c.errResult <;> simp [rowScan, h, hc]

/-- C7 witness: a cursor with no row and a pending driver error yields the
wrapped driver error; with no pending error it yields sql.ErrNoRows. -/
theorem c7_witness :
    (⟨false, some (.driver none 4), none, none⟩ : Cursor).nextHasRow = false
    ∧ rowScan (.live ⟨false, some (.driver none 4), none, none⟩)
        = ⟨some (.scanNextWrap (.driver none 4)), 1⟩
    ∧ (⟨false, none, none, none⟩ : Cursor).nextHasRow = false
    ∧ rowScan (.live ⟨false, none, none, none⟩) = ⟨some .errNoRows, 1⟩ :=
  ⟨rfl,
   (c7_scan_error_paths (.cbErr 0) ⟨false, some (.driver none 4), none, none⟩).2 rfl,
   rfl,
   (c7_scan_error_paths (.cbErr 0) ⟨false, none, none, none⟩).2 rfl⟩

/-- C5 (amended): on every Row.Scan path that owns a live cursor the cursor
is closed — exactly once on the no-row and scan-error paths, and twice on the
row-found path (the explicit close whose error is returned, then the deferred
close); on the prior-construction-error path no cursor exists and Close is
never invoked. -/
theorem c5_amended_close_counts (r : RowM) :
    (rowScan r).closes
      = match r with
        | .prior _ => 0
        | .live c => if c.nextHasRow = true ∧ c.scanErr = none then 2 else 1 := by
  match r with
  | .prior e => rfl
  | .live c =>
    cases hn : c.nextHasRow <;> cases hs : c.scanErr <;>
      cases hc : c.errResult <;> simp [rowScan, hn, hs, hc]

/-- Writing a key into the structCols map makes lookup of that key return the
new value. -/
theorem lookupCol_setCol_self (m : List (String × Nat)) (k : String) (v : Nat) :
    lookupCol (setCol m k v) k = some v := by
  induction m with
  | nil => simp [setCol, lookupCol]
  | cons hd tl ih =>
    obtain ⟨k', v'⟩ := hd
    by_cases h : k' = k <;> simp [setCol, lookupCol, h, ih]

/-- Writing one key leaves lookups of any other key unchanged. -/
theorem lookupCol_setCol_ne (m : List (String × Nat)) (k c : String) (v : Nat)
    (hne : c ≠ k) :
    lookupCol (setCol m k v) c = lookupCol m c := by
  induction m with
  | nil => simp [setCol, lookupCol, Ne.symm hne]
  | cons hd tl ih =>
    obtain ⟨k', v'⟩ := hd
    by_cases h : k' = k
    · subst h
      simp [setCol, lookupCol, Ne.symm hne]
    · by_cases h2 : k' = c <;> simp [setCol, lookupCol, h, h2, hne, ih]

mutual
/-- With override disabled, processing one field never changes an existing
binding of the structCols map: a plain field writes only fresh names, an
embedded record is recursed into with override disabled again. -/
theorem lookupCol_addNamedField_false (f : GoField) (m : List (String × Nat))
    (c : String) (v : Nat) (h : lookupCol m c = some v) :
    lookupCol (addNamedField m f false) c = some v :=
  match f with
  | .plain tag addr => by
    by_cases ht : tag = "-"
    · simpa [addNamedField, ht] using h
    · by_cases he : tag = ""
      · simpa [addNamedField, ht, he] using h
      · cases hl : lookupCol m tag with
        | some w => simpa [addNamedField, ht, he, hl] using h
        | none =>
          have hne : c ≠ tag := fun hEq => by rw [hEq, hl] at h; cases h
          rw [show addNamedField m (.plain tag addr) false = setCol m tag addr from by
            simp [addNamedField, ht, he, hl]]
          rw [lookupCol_setCol_ne m tag c addr hne]
          exact h
  | .embedded tag sub => by
    by_cases ht : tag = "-"
    · simpa [addNamedField, ht] using h
    · rw [show addNamedField m (.embedded tag sub) false = addNamedStruct m sub false from by
        simp [addNamedField, ht]]
      exact lookupCol_addNamedStruct_false sub m c v h

/-- With override disabled, walking a whole record never changes an existing
binding of the structCols map. -/
theorem lookupCol_addNamedStruct_false (s : GoStruct) (m : List (String × Nat))
    (c : String) (v : Nat) (h : lookupCol m c = some v) :
    lookupCol (addNamedStruct m s false) c = some v :=
  match s with
  | .nil => h
  | .cons f rest =>
    lookupCol_addNamedStruct_false rest (addNamedField m f false) c v
      (lookupCol_addNamedField_false f m c v h)
end

/-- With override enabled, walking a record none of whose outer plain fields
declares `c` preserves an existing binding of `c`: plain fields write other
names only and embedded records are recursed into with override disabled. -/
theorem lookupCol_addNamedStruct_noOuter (s : GoStruct) :
    ∀ (m : List (String × Nat)) (v : Nat) (c : String),
      lookupCol m c = some v → lastOuterAddr s c = none →
      lookupCol (addNamedStruct m s true) c = some v :=
  match s with
  | .nil => fun _ _ _ h _ => h
  | .cons (.plain tag addr) rest => by
    intro m v c h hout
    cases hr : lastOuterAddr rest c with
    | some a => simp [lastOuterAddr, hr] at hout
    | none =>
      simp only [lastOuterAddr, hr] at hout
      by_cases htc : tag = c
      · rw [if_pos htc] at hout; cases hout
      · have h' : lookupCol (addNamedField m (.plain tag addr) true) c = some v := by
          by_cases ht : tag = "-"
          · simpa [addNamedField, ht] using h
          · by_cases he : tag = ""
            · simpa [addNamedField, ht, he] using h
            · rw [show addNamedField m (.plain tag addr) true = setCol m tag addr from by
                simp [addNamedField, ht, he]]
              rw [lookupCol_setCol_ne m tag c addr (fun hEq => htc hEq.symm)]
              exact h
        exact lookupCol_addNamedStruct_noOuter rest (addNamedField m (.plain tag addr) true)
          v c h' hr
  | .cons (.embedded tag sub) rest => by
    intro m v c h hout
    have h' : lookupCol (addNamedField m (.embedded tag sub) true) c = some v := by
      by_cases ht : tag = "-"
      · simpa [addNamedField, ht] using h
      · rw [show addNamedField m (.embedded tag sub) true = addNamedStruct m sub false from by
          simp [addNamedField, ht]]
        exact lookupCol_addNamedStruct_false sub m c v h
    exact lookupCol_addNamedStruct_noOuter rest (addNamedField m (.embedded tag sub) true)
      v c h' hout

/-- With override enabled at the top level, the final binding of a column
name declared by an outer plain field is that outer field's address (the last
one in declaration order when several outer fields share the name), whatever
the starting map and whatever the embedded records contribute. -/
theorem addNamedStruct_outer_wins (s : GoStruct) :
    ∀ (m : List (String × Nat)) (c : String) (a : Nat),
      c ≠ "-" → c ≠ "" → lastOuterAddr s c = some a →
      lookupCol (addNamedStruct m s true) c = some a :=
  match s with
  | .nil => by
    intro m c a _ _ hout
    simp [lastOuterAddr] at hout
  | .cons (.plain tag addr) rest => by
    intro m c a hdash hempty hout
    cases hr : lastOuterAddr rest c with
    | some a' =>
      have ha : a' = a := by
        simp only [lastOuterAddr, hr] at hout
        exact Option.some.inj hout
      subst ha
      exact addNamedStruct_outer_wins rest (addNamedField m (.plain tag addr) true)
        c a' hdash hempty hr
    | none =>
      simp only [lastOuterAddr, hr] at hout
      by_cases htc : tag = c
      · rw [if_pos htc] at hout
        have haddr : addr = a := Option.some.inj hout
        subst haddr
        subst htc
        have hstep : addNamedField m (.plain tag addr) true = setCol m tag addr := by
          simp [addNamedField, hdash, hempty]
        show lookupCol (addNamedStruct (addNamedField m (.plain tag addr) true) rest true)
          tag = some addr
        rw [hstep]
        exact lookupCol_addNamedStruct_noOuter rest (setCol m tag addr) addr tag
          (lookupCol_setCol_self m tag addr) hr
      · rw [if_neg htc] at hout
        cases hout
  | .cons (.embedded tag sub) rest => by
    intro m c a hdash hempty hout
    exact addNamedStruct_outer_wins rest (addNamedField m (.embedded tag sub) true)
      c a hdash hempty hout

/-- C8: for a record in which an outer (non-embedded) plain field and an
embedded record both declare the same column name, the mapper run with
override enabled at the top level binds that column to the outer field's
address: because the embedded recursion runs with override disabled, a name
discovered through embedding never displaces the outer-declared name,
regardless of field declaration order. -/
theorem c8_outer_field_wins (s : GoStruct) (c : String) (a : Nat)
    (hdash : c ≠ "-") (hempty : c ≠ "")
    (hout : lastOuterAddr s c = some a)
    (_hemb : hasEmbeddedDecl s c = true) :
    lookupCol (addNamedStruct [] s true) c = some a :=
  addNamedStruct_outer_wins s [] c a hdash hempty hout

/-- C8 witness: the embedded record is declared first and contributes address
10 for column "col" before the outer field is reached, yet the final mapping
holds the outer field's address 20. -/
theorem c8_witness :
    ("col" : String) ≠ "-"
    ∧ ("col" : String) ≠ ""
    ∧ lastOuterAddr (.cons (.embedded "" (.cons (.plain "col" 10) .nil))
        (.cons (.plain "col" 20) .nil)) "col" = some 20
    ∧ hasEmbeddedDecl (.cons (.embedded "" (.cons (.plain "col" 10) .nil))
        (.cons (.plain "col" 20) .nil)) "col" = true
    ∧ lookupCol (addNamedStruct []
        (.cons (.embedded "" (.cons (.plain "col" 10) .nil))
          (.cons (.plain "col" 20) .nil)) true) "col" = some 20 := by
  refine ⟨by decide, by decide, rfl, rfl, ?_⟩
  exact c8_outer_field_wins
    (.cons (.embedded "" (.cons (.plain "col" 10) .nil)) (.cons (.plain "col" 20) .nil))
    "col" 20 (by decide) (by decide) rfl rfl

/-- The record loop of the walkBaton InsertStruct after the first record
fails, and fails with the Length Mismatch error, exactly when some record in
the list produces a column count different from the number of first-record
names. -/
theorem insertStructRest_error_iff (names : List String) (l : List GoStruct) :
    insertStructRest names l = .error .lengthMismatch
      ↔ ∃ s' ∈ l, (colsOf s').length ≠ names.length := by
  induction l with
  | nil => simp [insertStructRest]
  | cons hd tl ih =>
    simp only [insertStructRest]
    by_cases h : names.length = (colsOf hd).length
    · rw [if_pos h]
      cases hrec : insertStructRest names tl with
      | error e =>
        rw [hrec] at ih
        simp only [hrec]
        constructor
        · intro hEq
          obtain ⟨s', hs', hP⟩ := ih.mp hEq
          exact ⟨s', List.mem_cons_of_mem _ hs', hP⟩
        · rintro ⟨s', hs', hP⟩
          rcases List.mem_cons.mp hs' with hEq | hmem
          · subst hEq
            exact absurd hP (by omega)
          · exact ih.mpr ⟨s', hmem, hP⟩
      | ok rows =>
        rw [hrec] at ih
        simp only [hrec]
        constructor
        · intro hEq
          exact absurd hEq (by simp)
        · rintro ⟨s', hs', hP⟩
          rcases List.mem_cons.mp hs' with hEq | hmem
          · subst hEq
            exact absurd hP (by omega)
          · exact absurd (ih.mpr ⟨s', hmem, hP⟩) (by simp)
    · rw [if_neg h]
      constructor
      · intro _
        exact ⟨hd, List.mem_cons_self hd tl, by omega⟩
      · intro _
        rfl

/-- C9 (amended): the walkBaton revision of InsertStruct fails — always with
the Length Mismatch error — if and only if some record after the first
produces a column count different from the first record's; in particular two
records with equal column counts but different column names are accepted
without error, the check being count-only. The legacy simple.go revision
performs no such comparison at all and never fails (see the
counterexample). -/
theorem c9_amended_count_only_check (s : GoStruct) (rest : List GoStruct) :
    InsertStruct (s :: rest) = .error .lengthMismatch
      ↔ ∃ s' ∈ rest, (colsOf s').length ≠ (colsOf s).length := by
  have h := insertStructRest_error_iff ((colsOf s).map Prod.fst) rest
  rw [List.length_map] at h
  simp only [InsertStruct]
  cases hrec : insertStructRest ((colsOf s).map Prod.fst) rest with
  | error e =>
    rw [hrec] at h
    simpa using h
  | ok rows =>
    rw [hrec] at h
    constructor
    · intro hEq
      exact absurd hEq (by simp)
    · intro hx
      exact absurd (h.mpr hx) (by simp)

end Sqrlx
